import Mathlib

/-!
Verification of the voice-server room registry (src/index.ts).

The server keeps an in-memory map `rooms : Map<roomId, Map<uid, User>>` and
three socket handlers mutate it: `voice:join`, `voice:leave` and `disconnect`.
We embed the handlers as pure functions over explicit state.  JavaScript
`Map` objects are embedded as insertion-ordered association lists with the
`get` / `set` / `delete` semantics of the ECMAScript specification, and the
loosely typed inbound payload fields are embedded as a small JavaScript value
type so that the coercions `String(x || "")` are faithful.
-/

/-- A JavaScript value as it can arrive in a socket payload field. -/
inductive JsVal where
  | vStr (s : String)
  | vNum (n : Int)
  | vBool (b : Bool)
  | vNull
  | vUndefined
deriving DecidableEq

/-- Truthiness of a JavaScript value, as used by the `||` operator. -/
def JsVal.truthy : JsVal → Bool
  | .vStr s => s ≠ ""
  | .vNum n => n ≠ 0
  | .vBool b => b
  | .vNull => false
  | .vUndefined => false

/-- The `String(v)` coercion of JavaScript. -/
def JsVal.toStr : JsVal → String
  | .vStr s => s
  | .vNum n => toString n
  | .vBool b => if b then "true" else "false"
  | .vNull => "null"
  | .vUndefined => "undefined"

/-- Whether the value is a string (used to state the normalizer claim). -/
def JsVal.isStr : JsVal → Bool
  | .vStr _ => true
  | _ => false

/-- The idiom `String(v || "")` used by every handler to coerce a field. -/
def jsOrEmpty (v : JsVal) : String :=
  if v.truthy then v.toStr else ""

/-- ASCII uppercasing, the effect of `toUpperCase()` on the ASCII strings
this server handles. -/
def jsUpper (s : String) : String := ⟨s.data.map Char.toUpper⟩

/-- A whitespace character as trimmed by `String.prototype.trim`. -/
def isJsSpace (c : Char) : Bool := c = ' ' || c = '\t' || c = '\n' || c = '\r'

/-- Embedding of `String.prototype.trim`: strip whitespace from both ends. -/
def jsTrim (s : String) : String :=
  ⟨(((s.data.dropWhile isJsSpace).reverse).dropWhile isJsSpace).reverse⟩

/-- Embedding of `normRoomId` (src/index.ts line 43):
`String(id || "").trim().toUpperCase()`. -/
def normRoomId (id : JsVal) : String :=
  jsUpper (jsTrim (jsOrEmpty id))

/-- Embedding of ECMAScript `Map.prototype.get` on an insertion-ordered
association list. -/
def mapGet {α β : Type} [DecidableEq α] : List (α × β) → α → Option β
  | [], _ => none
  | p :: rest, k => if p.1 = k then some p.2 else mapGet rest k

/-- Embedding of ECMAScript `Map.prototype.set`: update the entry in place
when the key exists (keeping its position), otherwise append at the end. -/
def mapSet {α β : Type} [DecidableEq α] : List (α × β) → α → β → List (α × β)
  | [], k, v => [(k, v)]
  | p :: rest, k, v => if p.1 = k then (k, v) :: rest else p :: mapSet rest k v

/-- Embedding of ECMAScript `Map.prototype.delete` (on the duplicate-free
lists a real `Map` can hold this removes the entry for `k`). -/
def mapDelete {α β : Type} [DecidableEq α] : List (α × β) → α → List (α × β)
  | [], _ => []
  | p :: rest, k => if p.1 = k then mapDelete rest k else p :: mapDelete rest k

/-- The keys of the association list are pairwise distinct, as is always the
case for a real JavaScript `Map`. -/
@[reducible] def keysNodup {α β : Type} [DecidableEq α] (m : List (α × β)) : Prop :=
  (m.map Prod.fst).Nodup

theorem mapGet_mapSet_self {α β : Type} [DecidableEq α] (m : List (α × β)) (k : α) (v : β) :
    mapGet (mapSet m k v) k = some v := by
  induction m with
  | nil => simp [mapSet, mapGet]
  | cons p rest ih =>
    by_cases h : p.1 = k
    · simp [mapSet, mapGet, h]
    · simp [mapSet, mapGet, h, ih]

theorem mapGet_mapSet_ne {α β : Type} [DecidableEq α] (m : List (α × β)) (k k' : α) (v : β)
    (h : k' ≠ k) : mapGet (mapSet m k v) k' = mapGet m k' := by
  induction m with
  | nil =>
    have hne : ¬ (k = k') := fun hc => h hc.symm
    simp [mapSet, mapGet, hne]
  | cons p rest ih =>
    by_cases hp : p.1 = k
    · subst hp
      have hne : ¬ (p.1 = k') := fun hc => h hc.symm
      simp [mapSet, mapGet, hne]
    · simp [mapSet, mapGet, hp, ih]

theorem mapGet_mapDelete_self {α β : Type} [DecidableEq α] (m : List (α × β)) (k : α) :
    mapGet (mapDelete m k) k = none := by
  induction m with
  | nil => simp [mapDelete, mapGet]
  | cons p rest ih =>
    by_cases h : p.1 = k
    · simp [mapDelete, h, ih]
    · simp [mapDelete, mapGet, h, ih]

theorem mapGet_mapDelete_ne {α β : Type} [DecidableEq α] (m : List (α × β)) (k k' : α)
    (h : k' ≠ k) : mapGet (mapDelete m k) k' = mapGet m k' := by
  induction m with
  | nil => simp [mapDelete]
  | cons p rest ih =>
    by_cases hp : p.1 = k
    · subst hp
      have hne : ¬ (p.1 = k') := fun hc => h hc.symm
      simp [mapDelete, mapGet, hne, ih]
    · simp [mapDelete, mapGet, hp, ih]

theorem mapSet_ne_nil {α β : Type} [DecidableEq α] (m : List (α × β)) (k : α) (v : β) :
    mapSet m k v ≠ [] := by
  cases m with
  | nil => simp [mapSet]
  | cons p rest =>
    by_cases h : p.1 = k <;> simp [mapSet, h]

theorem mem_mapSet {α β : Type} [DecidableEq α] {m : List (α × β)} {k : α} {v : β}
    {q : α × β} (h : q ∈ mapSet m k v) : q ∈ m ∨ q = (k, v) := by
  induction m with
  | nil => simp [mapSet] at h; simp [h]
  | cons p rest ih =>
    by_cases hp : p.1 = k
    · simp [mapSet, hp] at h
      rcases h with h | h
      · right; exact h
      · left; simp [h]
    · simp [mapSet, hp] at h
      rcases h with h | h
      · left; simp [h]
      · rcases ih h with h2 | h2
        · left; simp [h2]
        · right; exact h2

theorem mem_mapDelete {α β : Type} [DecidableEq α] {m : List (α × β)} {k : α}
    {q : α × β} (h : q ∈ mapDelete m k) : q ∈ m := by
  induction m with
  | nil => simp [mapDelete] at h
  | cons p rest ih =>
    by_cases hp : p.1 = k
    · simp [mapDelete, hp] at h
      exact List.mem_cons_of_mem _ (ih h)
    · simp [mapDelete, hp] at h
      rcases h with h | h
      · simp [h]
      · exact List.mem_cons_of_mem _ (ih h)

theorem mapGet_mem {α β : Type} [DecidableEq α] {m : List (α × β)} {k : α} {v : β}
    (h : mapGet m k = some v) : (k, v) ∈ m := by
  induction m with
  | nil => simp [mapGet] at h
  | cons p rest ih =>
    by_cases hp : p.1 = k
    · simp [mapGet, hp] at h
      obtain ⟨a, b⟩ := p
      simp at hp h
      subst hp
      subst h
      exact List.mem_cons_self _ _
    · simp [mapGet, hp] at h
      exact List.mem_cons_of_mem _ (ih h)

theorem mapDelete_eq_self {α β : Type} [DecidableEq α] {m : List (α × β)} {k : α}
    (h : mapGet m k = none) : mapDelete m k = m := by
  induction m with
  | nil => simp [mapDelete]
  | cons p rest ih =>
    by_cases hp : p.1 = k
    · simp [mapGet, hp] at h
    · simp [mapGet, hp] at h
      simp [mapDelete, hp, ih h]

theorem mapGet_eq_none_iff {α β : Type} [DecidableEq α] {m : List (α × β)} {k : α} :
    mapGet m k = none ↔ k ∉ m.map Prod.fst := by
  induction m with
  | nil => simp [mapGet]
  | cons p rest ih =>
    by_cases hp : p.1 = k
    · simp [mapGet, hp]
    · have hne : ¬ (k = p.1) := fun hc => hp hc.symm
      simp [mapGet, hp, hne, ih]

theorem keys_mapSet_of_get_some {α β : Type} [DecidableEq α] {m : List (α × β)} {k : α} (v : β)
    (h : (mapGet m k).isSome) :
    (mapSet m k v).map Prod.fst = m.map Prod.fst := by
  induction m with
  | nil => simp [mapGet] at h
  | cons p rest ih =>
    by_cases hp : p.1 = k
    · simp [mapSet, hp]
    · simp [mapGet, hp] at h
      simp [mapSet, hp, ih h]

theorem keys_mapSet_of_get_none {α β : Type} [DecidableEq α] {m : List (α × β)} {k : α} (v : β)
    (h : mapGet m k = none) :
    (mapSet m k v).map Prod.fst = m.map Prod.fst ++ [k] := by
  induction m with
  | nil => simp [mapSet]
  | cons p rest ih =>
    by_cases hp : p.1 = k
    · simp [mapGet, hp] at h
    · simp [mapGet, hp] at h
      simp [mapSet, hp, ih h]

theorem keysNodup_mapSet {α β : Type} [DecidableEq α] {m : List (α × β)} (k : α) (v : β)
    (h : keysNodup m) : keysNodup (mapSet m k v) := by
  unfold keysNodup at *
  cases hg : mapGet m k with
  | some w =>
    rw [keys_mapSet_of_get_some v (by simp [hg])]
    exact h
  | none =>
    rw [keys_mapSet_of_get_none v hg]
    have hk : k ∉ m.map Prod.fst := mapGet_eq_none_iff.mp hg
    rw [List.nodup_append]
    refine ⟨h, List.nodup_singleton k, ?_⟩
    intro a ha hb
    simp at hb
    subst hb
    exact hk ha

theorem keys_mapDelete_sublist {α β : Type} [DecidableEq α] (m : List (α × β)) (k : α) :
    ((mapDelete m k).map Prod.fst).Sublist (m.map Prod.fst) := by
  induction m with
  | nil => simp [mapDelete]
  | cons p rest ih =>
    by_cases hp : p.1 = k
    · simp only [mapDelete, hp, if_pos rfl, List.map_cons]
      exact List.Sublist.cons _ ih
    · simp only [mapDelete, if_neg hp, List.map_cons]
      exact List.Sublist.cons₂ _ ih

theorem keysNodup_mapDelete {α β : Type} [DecidableEq α] {m : List (α × β)} (k : α)
    (h : keysNodup m) : keysNodup (mapDelete m k) :=
  List.Nodup.sublist (keys_mapDelete_sublist m k) h

theorem mapSet_eq_self {α β : Type} [DecidableEq α] {m : List (α × β)} {k : α} {v : β}
    (hnd : keysNodup m) (h : mapGet m k = some v) : mapSet m k v = m := by
  induction m with
  | nil => simp [mapGet] at h
  | cons p rest ih =>
    rw [keysNodup, List.map_cons, List.nodup_cons] at hnd
    by_cases hp : p.1 = k
    · simp [mapGet, hp] at h
      obtain ⟨a, b⟩ := p
      simp at hp h
      subst hp
      subst h
      simp [mapSet]
    · simp [mapGet, hp] at h
      simp [mapSet, hp, ih hnd.2 h]

theorem countP_key_eq_one {α β : Type} [DecidableEq α] {m : List (α × β)} {k : α} {v : β}
    (hnd : keysNodup m) (h : mapGet m k = some v) :
    m.countP (fun q => q.1 == k) = 1 := by
  induction m with
  | nil => simp [mapGet] at h
  | cons p rest ih =>
    rw [keysNodup, List.map_cons, List.nodup_cons] at hnd
    by_cases hp : p.1 = k
    · have hrest : rest.countP (fun q => q.1 == k) = 0 := by
        rw [List.countP_eq_zero]
        intro q hq
        simp only [beq_iff_eq]
        intro hc
        apply hnd.1
        rw [hp, ← hc]
        exact List.mem_map_of_mem Prod.fst hq
      simp [List.countP_cons, hp, hrest]
    · simp [mapGet, hp] at h
      simp [List.countP_cons, hp, ih hnd.2 h]


/-- A connected user in a voice room (src/index.ts line 25):
uid, display name and PeerJS peer id. -/
structure User where
  uid : String
  name : String
  peerId : String
deriving DecidableEq

/-- A room: the inner `Map<uid, User>` of the rooms map. -/
abbrev RoomMap := List (String × User)

/-- The registry: the outer `Map<roomId, Map<uid, User>>` (src/index.ts
line 139). -/
abbrev RoomsMap := List (String × RoomMap)

/-- Per-socket state: the `socket.data.rid` / `socket.data.uid` fields set by
the join handler, and the set of socket.io rooms the socket has joined. -/
structure Conn where
  dataRid : Option String
  dataUid : Option String
  joined : List String
deriving DecidableEq

/-- A fresh socket: no data fields set, no socket.io rooms joined. -/
def Conn.fresh : Conn := ⟨none, none, []⟩

/-- The full server state: the rooms registry plus the per-socket state,
keyed by a socket identifier. -/
structure SState where
  rooms : RoomsMap
  conns : List (Nat × Conn)
deriving DecidableEq

/-- Lookup of the state of socket `sid` (a socket that has not been seen yet
is fresh). -/
def getConn (s : SState) (sid : Nat) : Conn :=
  (mapGet s.conns sid).getD Conn.fresh

/-- The payload of a `voice:join` event; fields are arbitrary JavaScript
values, as delivered by socket.io. -/
structure JoinPayload where
  roomId : JsVal
  uid : JsVal
  name : JsVal
  peerId : JsVal
deriving DecidableEq

/-- The payload of a `voice:leave` event. -/
structure LeavePayload where
  roomId : JsVal
  uid : JsVal
deriving DecidableEq

/-- The acknowledgement sent back to a joining client (src/index.ts
line 33). -/
inductive VoiceJoinAck where
  | okAck (peers : List User)
  | badRequest
deriving DecidableEq

/-- A message broadcast with `socket.to(room).emit(...)`. -/
inductive BMsg where
  | userJoined (uid name peerId : String)
  | userLeft (uid : String)
deriving DecidableEq

/-- One broadcast: the target socket.io room, the emitting socket (which
socket.io excludes from delivery) and the message. -/
structure Broadcast where
  room : String
  sender : Nat
  msg : BMsg
deriving DecidableEq

/-- The observable result of one handler invocation: the next server state,
the value passed to the ack callback if any, and the emitted broadcasts. -/
structure StepOut where
  state : SState
  ack : Option VoiceJoinAck
  broadcasts : List Broadcast
deriving DecidableEq

/-- Embedding of the `voice:join` handler (src/index.ts lines 149 to 175). -/
def handleJoin (s : SState) (sid : Nat) (p : JoinPayload) : StepOut :=
  let rid := normRoomId p.roomId
  let uid := jsTrim (jsOrEmpty p.uid)
  let name := if jsTrim (jsOrEmpty p.name) = "" then "Guest" else jsTrim (jsOrEmpty p.name)
  let peerId := jsTrim (jsOrEmpty p.peerId)
  if rid = "" ∨ uid = "" ∨ peerId = "" then
    ⟨s, some VoiceJoinAck.badRequest, []⟩
  else
    let map := (mapGet s.rooms rid).getD []
    let map1 := mapSet map uid ⟨uid, name, peerId⟩
    let rooms1 := mapSet s.rooms rid map1
    let c := getConn s sid
    let joined1 := if rid ∈ c.joined then c.joined else c.joined ++ [rid]
    let c1 : Conn := ⟨some rid, some uid, joined1⟩
    let peers := map1.map Prod.snd
    ⟨⟨rooms1, mapSet s.conns sid c1⟩, some (VoiceJoinAck.okAck peers),
      [⟨rid, sid, BMsg.userJoined uid name peerId⟩]⟩

/-- Embedding of the `voice:leave` handler (src/index.ts lines 182 to 195). -/
def handleLeave (s : SState) (sid : Nat) (p : LeavePayload) : StepOut :=
  let rid := normRoomId p.roomId
  let uid := jsTrim (jsOrEmpty p.uid)
  if rid = "" ∨ uid = "" then ⟨s, none, []⟩
  else
    match mapGet s.rooms rid with
    | none => ⟨s, none, []⟩
    | some map =>
      let map1 := mapDelete map uid
      let rooms1 := if map1.isEmpty then mapDelete s.rooms rid else mapSet s.rooms rid map1
      let c := getConn s sid
      let c1 : Conn := ⟨c.dataRid, c.dataUid, c.joined.filter (fun r => r ≠ rid)⟩
      ⟨⟨rooms1, mapSet s.conns sid c1⟩, none, [⟨rid, sid, BMsg.userLeft uid⟩]⟩

/-- Embedding of the `disconnect` handler (src/index.ts lines 200 to 212). -/
def handleDisconnect (s : SState) (sid : Nat) : StepOut :=
  let c := getConn s sid
  match c.dataRid, c.dataUid with
  | some rid, some uid =>
    if rid = "" ∨ uid = "" then ⟨s, none, []⟩
    else
      match mapGet s.rooms rid with
      | none => ⟨s, none, []⟩
      | some map =>
        let map1 := mapDelete map uid
        let rooms1 := if map1.isEmpty then mapDelete s.rooms rid else mapSet s.rooms rid map1
        ⟨⟨rooms1, s.conns⟩, none, [⟨rid, sid, BMsg.userLeft uid⟩]⟩
  | _, _ => ⟨s, none, []⟩

/-- An inbound event, tagged with the socket it arrives on. -/
inductive Event where
  | join (sid : Nat) (p : JoinPayload)
  | leave (sid : Nat) (p : LeavePayload)
  | disconnect (sid : Nat)
deriving DecidableEq

/-- Dispatch one event to its handler. -/
def stepEvent (s : SState) : Event → StepOut
  | .join sid p => handleJoin s sid p
  | .leave sid p => handleLeave s sid p
  | .disconnect sid => handleDisconnect s sid

/-- The state after one event, discarding the outputs. -/
def stepState (s : SState) (e : Event) : SState :=
  (stepEvent s e).state

/-- The state the process starts in: empty registry, no sockets seen. -/
def initState : SState := ⟨[], []⟩

/-- The state after a whole sequence of events from process start. -/
def runEvents (evs : List Event) : SState :=
  evs.foldl stepState initState

/-- Every room stored in the registry has at least one member. -/
@[reducible] def roomsNonempty (r : RoomsMap) : Prop := ∀ q ∈ r, q.2 ≠ []

/-- Every stored member sits under the key equal to its own uid field. -/
@[reducible] def roomsKeyConsistent (r : RoomsMap) : Prop := ∀ q ∈ r, ∀ e ∈ q.2, e.2.uid = e.1

/-- Well-formedness of the registry: rooms are nonempty, room ids and member
ids are duplicate-free (as in a real JavaScript `Map`), and entries are
key-consistent. -/
def RegWF (r : RoomsMap) : Prop :=
  roomsNonempty r ∧ keysNodup r ∧ (∀ q ∈ r, keysNodup q.2) ∧ roomsKeyConsistent r

theorem regWF_nil : RegWF [] := by
  refine ⟨?_, ?_, ?_, ?_⟩ <;> simp [roomsNonempty, keysNodup, roomsKeyConsistent]

theorem regWF_set_room {r : RoomsMap} {rid : String} {m1 : RoomMap}
    (h : RegWF r) (hne : m1 ≠ []) (hnd : keysNodup m1)
    (hcons : ∀ e ∈ m1, e.2.uid = e.1) : RegWF (mapSet r rid m1) := by
  obtain ⟨h1, h2, h3, h4⟩ := h
  refine ⟨?_, keysNodup_mapSet rid m1 h2, ?_, ?_⟩
  · intro q hq
    rcases mem_mapSet hq with hm | he
    · exact h1 q hm
    · rw [he]; exact hne
  · intro q hq
    rcases mem_mapSet hq with hm | he
    · exact h3 q hm
    · rw [he]; exact hnd
  · intro q hq
    rcases mem_mapSet hq with hm | he
    · exact h4 q hm
    · rw [he]; exact hcons

theorem regWF_delete_room {r : RoomsMap} (rid : String) (h : RegWF r) :
    RegWF (mapDelete r rid) := by
  obtain ⟨h1, h2, h3, h4⟩ := h
  exact ⟨fun q hq => h1 q (mem_mapDelete hq), keysNodup_mapDelete rid h2,
    fun q hq => h3 q (mem_mapDelete hq), fun q hq => h4 q (mem_mapDelete hq)⟩

theorem stored_room_nodup {r : RoomsMap} (rid : String) (h : ∀ q ∈ r, keysNodup q.2) :
    keysNodup ((mapGet r rid).getD []) := by
  cases hg : mapGet r rid with
  | none => simp [keysNodup]
  | some m => exact h _ (mapGet_mem hg)

theorem stored_room_consistent {r : RoomsMap} (rid : String) (h : roomsKeyConsistent r) :
    ∀ e ∈ (mapGet r rid).getD [], e.2.uid = e.1 := by
  cases hg : mapGet r rid with
  | none => simp
  | some m => exact h _ (mapGet_mem hg)

theorem handleJoin_bad (s : SState) (sid : Nat) (p : JoinPayload)
    (h : normRoomId p.roomId = "" ∨ jsTrim (jsOrEmpty p.uid) = "" ∨
      jsTrim (jsOrEmpty p.peerId) = "") :
    handleJoin s sid p = ⟨s, some VoiceJoinAck.badRequest, []⟩ := by
  simp only [handleJoin]
  rw [if_pos h]

theorem handleJoin_ok (s : SState) (sid : Nat) (p : JoinPayload)
    (hr : normRoomId p.roomId ≠ "") (hu : jsTrim (jsOrEmpty p.uid) ≠ "")
    (hp : jsTrim (jsOrEmpty p.peerId) ≠ "") :
    handleJoin s sid p =
      ⟨⟨mapSet s.rooms (normRoomId p.roomId)
          (mapSet ((mapGet s.rooms (normRoomId p.roomId)).getD [])
            (jsTrim (jsOrEmpty p.uid))
            ⟨jsTrim (jsOrEmpty p.uid),
             if jsTrim (jsOrEmpty p.name) = "" then "Guest" else jsTrim (jsOrEmpty p.name),
             jsTrim (jsOrEmpty p.peerId)⟩),
        mapSet s.conns sid
          ⟨some (normRoomId p.roomId), some (jsTrim (jsOrEmpty p.uid)),
           if normRoomId p.roomId ∈ (getConn s sid).joined then (getConn s sid).joined
           else (getConn s sid).joined ++ [normRoomId p.roomId]⟩⟩,
       some (VoiceJoinAck.okAck
         ((mapSet ((mapGet s.rooms (normRoomId p.roomId)).getD [])
            (jsTrim (jsOrEmpty p.uid))
            ⟨jsTrim (jsOrEmpty p.uid),
             if jsTrim (jsOrEmpty p.name) = "" then "Guest" else jsTrim (jsOrEmpty p.name),
             jsTrim (jsOrEmpty p.peerId)⟩).map Prod.snd)),
       [⟨normRoomId p.roomId, sid,
         BMsg.userJoined (jsTrim (jsOrEmpty p.uid))
           (if jsTrim (jsOrEmpty p.name) = "" then "Guest" else jsTrim (jsOrEmpty p.name))
           (jsTrim (jsOrEmpty p.peerId))⟩]⟩ := by
  simp only [handleJoin]
  rw [if_neg (by simp [hr, hu, hp])]

theorem handleLeave_bad (s : SState) (sid : Nat) (p : LeavePayload)
    (h : normRoomId p.roomId = "" ∨ jsTrim (jsOrEmpty p.uid) = "") :
    handleLeave s sid p = ⟨s, none, []⟩ := by
  simp only [handleLeave]
  rw [if_pos h]

theorem handleLeave_none (s : SState) (sid : Nat) (p : LeavePayload)
    (hr : normRoomId p.roomId ≠ "") (hu : jsTrim (jsOrEmpty p.uid) ≠ "")
    (hm : mapGet s.rooms (normRoomId p.roomId) = none) :
    handleLeave s sid p = ⟨s, none, []⟩ := by
  simp only [handleLeave]
  rw [if_neg (by simp [hr, hu]), hm]

theorem handleLeave_some (s : SState) (sid : Nat) (p : LeavePayload) (map : RoomMap)
    (hr : normRoomId p.roomId ≠ "") (hu : jsTrim (jsOrEmpty p.uid) ≠ "")
    (hm : mapGet s.rooms (normRoomId p.roomId) = some map) :
    handleLeave s sid p =
      ⟨⟨if (mapDelete map (jsTrim (jsOrEmpty p.uid))).isEmpty
          then mapDelete s.rooms (normRoomId p.roomId)
          else mapSet s.rooms (normRoomId p.roomId) (mapDelete map (jsTrim (jsOrEmpty p.uid))),
        mapSet s.conns sid
          ⟨(getConn s sid).dataRid, (getConn s sid).dataUid,
           (getConn s sid).joined.filter (fun r => r ≠ normRoomId p.roomId)⟩⟩,
       none, [⟨normRoomId p.roomId, sid, BMsg.userLeft (jsTrim (jsOrEmpty p.uid))⟩]⟩ := by
  simp only [handleLeave]
  rw [if_neg (by simp [hr, hu]), hm]

theorem handleDisconnect_no_binding (s : SState) (sid : Nat)
    (h : (getConn s sid).dataRid = none ∨ (getConn s sid).dataUid = none) :
    handleDisconnect s sid = ⟨s, none, []⟩ := by
  simp only [handleDisconnect]
  rcases hbr : (getConn s sid).dataRid with _ | rid
  · rfl
  · rcases hbu : (getConn s sid).dataUid with _ | uid
    · rfl
    · rw [hbr, hbu] at h
      rcases h with h | h <;> exact absurd h (by simp)

theorem handleDisconnect_bad (s : SState) (sid : Nat) (rid uid : String)
    (hbr : (getConn s sid).dataRid = some rid) (hbu : (getConn s sid).dataUid = some uid)
    (h : rid = "" ∨ uid = "") :
    handleDisconnect s sid = ⟨s, none, []⟩ := by
  simp only [handleDisconnect]
  rw [hbr, hbu]
  simp only []
  rw [if_pos h]

theorem handleDisconnect_no_room (s : SState) (sid : Nat) (rid uid : String)
    (hbr : (getConn s sid).dataRid = some rid) (hbu : (getConn s sid).dataUid = some uid)
    (hr : rid ≠ "") (hu : uid ≠ "") (hm : mapGet s.rooms rid = none) :
    handleDisconnect s sid = ⟨s, none, []⟩ := by
  simp only [handleDisconnect]
  rw [hbr, hbu]
  simp only []
  rw [if_neg (by simp [hr, hu]), hm]

theorem handleDisconnect_room (s : SState) (sid : Nat) (rid uid : String) (map : RoomMap)
    (hbr : (getConn s sid).dataRid = some rid) (hbu : (getConn s sid).dataUid = some uid)
    (hr : rid ≠ "") (hu : uid ≠ "") (hm : mapGet s.rooms rid = some map) :
    handleDisconnect s sid =
      ⟨⟨if (mapDelete map uid).isEmpty
          then mapDelete s.rooms rid
          else mapSet s.rooms rid (mapDelete map uid), s.conns⟩,
       none, [⟨rid, sid, BMsg.userLeft uid⟩]⟩ := by
  simp only [handleDisconnect]
  rw [hbr, hbu]
  simp only []
  rw [if_neg (by simp [hr, hu]), hm]

theorem regWF_handleJoin (s : SState) (sid : Nat) (p : JoinPayload)
    (h : RegWF s.rooms) : RegWF (handleJoin s sid p).state.rooms := by
  by_cases hval : normRoomId p.roomId = "" ∨ jsTrim (jsOrEmpty p.uid) = "" ∨
      jsTrim (jsOrEmpty p.peerId) = ""
  · rw [handleJoin_bad s sid p hval]
    exact h
  · push_neg at hval
    rw [handleJoin_ok s sid p hval.1 hval.2.1 hval.2.2]
    apply regWF_set_room h (mapSet_ne_nil _ _ _)
    · exact keysNodup_mapSet _ _ (stored_room_nodup _ h.2.2.1)
    · intro e he
      rcases mem_mapSet he with hm | hee
      · exact stored_room_consistent _ h.2.2.2 e hm
      · rw [hee]

theorem regWF_handleLeave (s : SState) (sid : Nat) (p : LeavePayload)
    (h : RegWF s.rooms) : RegWF (handleLeave s sid p).state.rooms := by
  by_cases hval : normRoomId p.roomId = "" ∨ jsTrim (jsOrEmpty p.uid) = ""
  · rw [handleLeave_bad s sid p hval]
    exact h
  · push_neg at hval
    cases hm : mapGet s.rooms (normRoomId p.roomId) with
    | none =>
      rw [handleLeave_none s sid p hval.1 hval.2 hm]
      exact h
    | some map =>
      rw [handleLeave_some s sid p map hval.1 hval.2 hm]
      by_cases hempty : (mapDelete map (jsTrim (jsOrEmpty p.uid))).isEmpty
      · simp only [hempty, if_true]
        exact regWF_delete_room _ h
      · simp only [hempty, if_false]
        apply regWF_set_room h
        · intro hnil
          rw [hnil] at hempty
          simp at hempty
        · exact keysNodup_mapDelete _ (h.2.2.1 _ (mapGet_mem hm))
        · intro e he
          exact h.2.2.2 _ (mapGet_mem hm) e (mem_mapDelete he)

theorem regWF_handleDisconnect (s : SState) (sid : Nat)
    (h : RegWF s.rooms) : RegWF (handleDisconnect s sid).state.rooms := by
  rcases hbr : (getConn s sid).dataRid with _ | rid
  · rw [handleDisconnect_no_binding s sid (Or.inl hbr)]
    exact h
  · rcases hbu : (getConn s sid).dataUid with _ | uid
    · rw [handleDisconnect_no_binding s sid (Or.inr hbu)]
      exact h
    · by_cases hval : rid = "" ∨ uid = ""
      · rw [handleDisconnect_bad s sid rid uid hbr hbu hval]
        exact h
      · push_neg at hval
        cases hm : mapGet s.rooms rid with
        | none =>
          rw [handleDisconnect_no_room s sid rid uid hbr hbu hval.1 hval.2 hm]
          exact h
        | some map =>
          rw [handleDisconnect_room s sid rid uid map hbr hbu hval.1 hval.2 hm]
          by_cases hempty : (mapDelete map uid).isEmpty
          · simp only [hempty, if_true]
            exact regWF_delete_room _ h
          · simp only [hempty, if_false]
            apply regWF_set_room h
            · intro hnil
              rw [hnil] at hempty
              simp at hempty
            · exact keysNodup_mapDelete _ (h.2.2.1 _ (mapGet_mem hm))
            · intro e he
              exact h.2.2.2 _ (mapGet_mem hm) e (mem_mapDelete he)

theorem regWF_stepState (s : SState) (e : Event)
    (h : RegWF s.rooms) : RegWF (stepState s e).rooms := by
  cases e with
  | join sid p => exact regWF_handleJoin s sid p h
  | leave sid p => exact regWF_handleLeave s sid p h
  | disconnect sid => exact regWF_handleDisconnect s sid h

theorem regWF_foldl (evs : List Event) (s : SState) (h : RegWF s.rooms) :
    RegWF (evs.foldl stepState s).rooms := by
  induction evs generalizing s with
  | nil => exact h
  | cons e rest ih => exact ih _ (regWF_stepState s e h)

theorem regWF_runEvents (evs : List Event) : RegWF (runEvents evs).rooms :=
  regWF_foldl evs initState regWF_nil

theorem getConn_set (r : RoomsMap) (conns : List (Nat × Conn)) (sid : Nat) (c : Conn) :
    getConn ⟨r, mapSet conns sid c⟩ sid = c := by
  simp [getConn, mapGet_mapSet_self]

/-- C1: starting from the empty registry, after every sequence of join,
leave and disconnect events, every room id present as a key in the registry
maps to a room with at least one member; a leave or disconnect that removes
the last member deletes the room entry in the same operation, so an empty
room is never observable. -/
theorem registry_rooms_always_nonempty (evs : List Event) (rid : String) (room : RoomMap)
    (h : mapGet (runEvents evs).rooms rid = some room) : room ≠ [] :=
  (regWF_runEvents evs).1 _ (mapGet_mem h)

theorem registry_rooms_always_nonempty_witness :
    mapGet (runEvents [Event.join 0 ⟨.vStr "x", .vStr "u1", .vStr "A", .vStr "p1"⟩,
        Event.join 1 ⟨.vStr "X", .vStr "u2", .vStr "B", .vStr "p2"⟩,
        Event.leave 0 ⟨.vStr "X", .vStr "u1"⟩]).rooms "X"
      = some [("u2", ⟨"u2", "B", "p2"⟩)] ∧
    [("u2", (⟨"u2", "B", "p2"⟩ : User))] ≠ ([] : RoomMap) :=
  ⟨by decide, registry_rooms_always_nonempty
    [Event.join 0 ⟨.vStr "x", .vStr "u1", .vStr "A", .vStr "p1"⟩,
     Event.join 1 ⟨.vStr "X", .vStr "u2", .vStr "B", .vStr "p2"⟩,
     Event.leave 0 ⟨.vStr "X", .vStr "u1"⟩] "X" _ (by decide)⟩

/-- C9: in every reachable registry state every room entry is internally key
consistent: the member stored under key u has its uid field equal to u, and
the member keys of a room are duplicate free, hence the peers list returned
by a join acknowledgement lists each user id at most once. -/
theorem registry_rooms_key_consistent (evs : List Event) (rid : String) (room : RoomMap)
    (h : mapGet (runEvents evs).rooms rid = some room) :
    (∀ e ∈ room, e.2.uid = e.1) ∧ keysNodup room :=
  ⟨(regWF_runEvents evs).2.2.2 _ (mapGet_mem h), (regWF_runEvents evs).2.2.1 _ (mapGet_mem h)⟩

theorem registry_rooms_key_consistent_witness :
    ((∀ e ∈ [("u7", (⟨"u7", "N", "p7"⟩ : User))], e.2.uid = e.1) ∧
      keysNodup [("u7", (⟨"u7", "N", "p7"⟩ : User))]) :=
  registry_rooms_key_consistent
    [Event.join 2 ⟨.vStr " q ", .vStr "u7", .vStr "N", .vStr "p7"⟩] "Q" _ (by decide)

/-- C2: a join in which roomId, uid or peerId is empty after normalization
is acknowledged with BAD_REQUEST, the state (registry included) is left
exactly as it was, and no broadcast is emitted. -/
theorem join_bad_request_no_mutation (s : SState) (sid : Nat) (p : JoinPayload)
    (h : normRoomId p.roomId = "" ∨ jsTrim (jsOrEmpty p.uid) = "" ∨
      jsTrim (jsOrEmpty p.peerId) = "") :
    (handleJoin s sid p).state = s ∧
    (handleJoin s sid p).ack = some VoiceJoinAck.badRequest ∧
    (handleJoin s sid p).broadcasts = [] := by
  rw [handleJoin_bad s sid p h]
  exact ⟨rfl, rfl, rfl⟩

theorem join_bad_request_no_mutation_witness :
    ((handleJoin ⟨[("A", [("u", ⟨"u", "n", "q"⟩)])], []⟩ 3
        ⟨.vStr "ROOM", .vStr " ", .vStr "Bob", .vStr "pid"⟩).state
      = ⟨[("A", [("u", ⟨"u", "n", "q"⟩)])], []⟩ ∧
    (handleJoin ⟨[("A", [("u", ⟨"u", "n", "q"⟩)])], []⟩ 3
        ⟨.vStr "ROOM", .vStr " ", .vStr "Bob", .vStr "pid"⟩).ack
      = some VoiceJoinAck.badRequest ∧
    (handleJoin ⟨[("A", [("u", ⟨"u", "n", "q"⟩)])], []⟩ 3
        ⟨.vStr "ROOM", .vStr " ", .vStr "Bob", .vStr "pid"⟩).broadcasts = []) :=
  join_bad_request_no_mutation _ 3 _ (by decide)

/-- C10: a successful join only touches the entry of its own room and user:
every other room id maps to the same room as before, and inside the target
room every other user id maps to the same member as before. -/
theorem join_frame_effect (s : SState) (sid : Nat) (p : JoinPayload)
    (hr : normRoomId p.roomId ≠ "") (hu : jsTrim (jsOrEmpty p.uid) ≠ "")
    (hp : jsTrim (jsOrEmpty p.peerId) ≠ "") :
    (∀ r, r ≠ normRoomId p.roomId →
      mapGet (handleJoin s sid p).state.rooms r = mapGet s.rooms r) ∧
    (∀ u, u ≠ jsTrim (jsOrEmpty p.uid) →
      mapGet ((mapGet (handleJoin s sid p).state.rooms (normRoomId p.roomId)).getD []) u
        = mapGet ((mapGet s.rooms (normRoomId p.roomId)).getD []) u) := by
  rw [handleJoin_ok s sid p hr hu hp]
  constructor
  · intro r hne
    exact mapGet_mapSet_ne _ _ _ _ hne
  · intro u hne
    show mapGet ((mapGet (mapSet s.rooms _ _) _).getD []) u = _
    rw [mapGet_mapSet_self]
    show mapGet (mapSet _ _ _) u = _
    exact mapGet_mapSet_ne _ _ _ _ hne

theorem join_frame_effect_witness :
    (mapGet (handleJoin ⟨[("B", [("w", ⟨"w", "n", "q"⟩)]), ("R", [("v", ⟨"v", "m", "t"⟩)])], []⟩
        0 ⟨.vStr "R", .vStr "u9", .vStr "Ann", .vStr "p9"⟩).state.rooms "B"
      = mapGet [("B", [("w", (⟨"w", "n", "q"⟩ : User))]), ("R", [("v", ⟨"v", "m", "t"⟩)])] "B") ∧
    (mapGet ((mapGet (handleJoin ⟨[("B", [("w", ⟨"w", "n", "q"⟩)]), ("R", [("v", ⟨"v", "m", "t"⟩)])], []⟩
          0 ⟨.vStr "R", .vStr "u9", .vStr "Ann", .vStr "p9"⟩).state.rooms "R").getD []) "v"
      = mapGet ((mapGet ([("B", [("w", (⟨"w", "n", "q"⟩ : User))]), ("R", [("v", ⟨"v", "m", "t"⟩)])] : RoomsMap) "R").getD []) "v") :=
  ⟨(join_frame_effect _ 0 _ (by decide) (by decide) (by decide)).1 "B" (by decide),
   (join_frame_effect _ 0 _ (by decide) (by decide) (by decide)).2 "v" (by decide)⟩

theorem rooms_after_two_sets (r : RoomsMap) (rid u : String) (a b : User)
    (hWF : ∀ q ∈ r, keysNodup q.2) :
    ∃ room : RoomMap,
      mapGet (mapSet (mapSet r rid (mapSet ((mapGet r rid).getD []) u a)) rid
        (mapSet ((mapGet (mapSet r rid (mapSet ((mapGet r rid).getD []) u a)) rid).getD [])
          u b)) rid = some room ∧
      mapGet room u = some b ∧ room.countP (fun e => e.1 == u) = 1 := by
  have h1 : mapGet (mapSet r rid (mapSet ((mapGet r rid).getD []) u a)) rid
      = some (mapSet ((mapGet r rid).getD []) u a) := mapGet_mapSet_self _ _ _
  rw [h1]
  simp only [Option.getD_some]
  refine ⟨_, mapGet_mapSet_self _ _ _, mapGet_mapSet_self _ _ _, ?_⟩
  exact countP_key_eq_one
    (keysNodup_mapSet _ _ (keysNodup_mapSet _ _ (stored_room_nodup _ hWF)))
    (mapGet_mapSet_self _ _ _)

/-- C3: joining twice with the same normalized room id and user id makes the
second join overwrite the first entry in place: the room then contains
exactly one entry keyed by that user, holding displayName Alice2 and signal
address peer-2 from the second join. -/
theorem rejoin_overwrites_member (s : SState) (sid1 sid2 : Nat) (r1 r2 w1 w2 : JsVal)
    (hr2 : normRoomId r2 = normRoomId r1)
    (hw2 : jsTrim (jsOrEmpty w2) = jsTrim (jsOrEmpty w1))
    (hrne : normRoomId r1 ≠ "") (hune : jsTrim (jsOrEmpty w1) ≠ "")
    (hWF : ∀ q ∈ s.rooms, keysNodup q.2) :
    ∃ room : RoomMap,
      mapGet (handleJoin (handleJoin s sid1 ⟨r1, w1, .vStr "Alice", .vStr "peer-1"⟩).state
          sid2 ⟨r2, w2, .vStr "Alice2", .vStr "peer-2"⟩).state.rooms (normRoomId r1)
        = some room ∧
      mapGet room (jsTrim (jsOrEmpty w1))
        = some ⟨jsTrim (jsOrEmpty w1), "Alice2", "peer-2"⟩ ∧
      room.countP (fun e => e.1 == jsTrim (jsOrEmpty w1)) = 1 := by
  rw [handleJoin_ok s sid1 (JoinPayload.mk r1 w1 (.vStr "Alice") (.vStr "peer-1")) hrne hune
      (by show jsTrim (jsOrEmpty (JsVal.vStr "peer-1")) ≠ ""; decide)]
  rw [handleJoin_ok _ sid2 (JoinPayload.mk r2 w2 (.vStr "Alice2") (.vStr "peer-2"))
      (by show normRoomId r2 ≠ ""; rw [hr2]; exact hrne)
      (by show jsTrim (jsOrEmpty w2) ≠ ""; rw [hw2]; exact hune)
      (by show jsTrim (jsOrEmpty (JsVal.vStr "peer-2")) ≠ ""; decide)]
  simp only []
  rw [hr2, hw2]
  have hname2 : (if jsTrim (jsOrEmpty (JsVal.vStr "Alice2")) = "" then "Guest"
      else jsTrim (jsOrEmpty (JsVal.vStr "Alice2"))) = "Alice2" := by decide
  have hpeer2 : jsTrim (jsOrEmpty (JsVal.vStr "peer-2")) = "peer-2" := by decide
  rw [hname2, hpeer2]
  exact rooms_after_two_sets s.rooms (normRoomId r1) (jsTrim (jsOrEmpty w1)) _ _ hWF

theorem rejoin_overwrites_member_witness :
    mapGet (handleJoin
        (handleJoin initState 0 ⟨.vStr "Room", .vStr "u1", .vStr "Alice", .vStr "peer-1"⟩).state
        1 ⟨.vStr "ROOM ", .vStr " u1 ", .vStr "Alice2", .vStr "peer-2"⟩).state.rooms
      (normRoomId (JsVal.vStr "Room")) ≠ none := by
  obtain ⟨room, h1, h2, h3⟩ := rejoin_overwrites_member initState 0 1
    (.vStr "Room") (.vStr "ROOM ") (.vStr "u1") (.vStr " u1 ")
    (by decide) (by decide) (by decide) (by decide) (by decide)
  rw [h1]
  simp

/-- C6: a leave naming a room that is absent from the registry, or a user
that is not a member of the named room, leaves the registry exactly as it
was: such a leave is a no-op on the rooms map, not an error. -/
theorem leave_nonmember_noop (s : SState) (sid : Nat) (p : LeavePayload)
    (hnd : keysNodup s.rooms) (hne : roomsNonempty s.rooms)
    (habsent : ∀ map : RoomMap, mapGet s.rooms (normRoomId p.roomId) = some map →
      mapGet map (jsTrim (jsOrEmpty p.uid)) = none) :
    (handleLeave s sid p).state.rooms = s.rooms := by
  by_cases hval : normRoomId p.roomId = "" ∨ jsTrim (jsOrEmpty p.uid) = ""
  · rw [handleLeave_bad s sid p hval]
  · push_neg at hval
    cases hm : mapGet s.rooms (normRoomId p.roomId) with
    | none => rw [handleLeave_none s sid p hval.1 hval.2 hm]
    | some map =>
      rw [handleLeave_some s sid p map hval.1 hval.2 hm]
      have hdel : mapDelete map (jsTrim (jsOrEmpty p.uid)) = map :=
        mapDelete_eq_self (habsent map hm)
      have hmn : map ≠ [] := hne _ (mapGet_mem hm)
      show (if (mapDelete map (jsTrim (jsOrEmpty p.uid))).isEmpty
          then mapDelete s.rooms (normRoomId p.roomId)
          else mapSet s.rooms (normRoomId p.roomId) (mapDelete map (jsTrim (jsOrEmpty p.uid))))
        = s.rooms
      rw [hdel, if_neg]
      · exact mapSet_eq_self hnd hm
      · cases map with
        | nil => exact absurd rfl hmn
        | cons a l => simp

theorem leave_nonmember_noop_witness :
    (handleLeave ⟨[("R", [("u2", ⟨"u2", "Bob", "p2"⟩)])], []⟩ 0
        ⟨.vStr "R", .vStr "u1"⟩).state.rooms = [("R", [("u2", ⟨"u2", "Bob", "p2"⟩)])] :=
  leave_nonmember_noop ⟨[("R", [("u2", ⟨"u2", "Bob", "p2"⟩)])], []⟩ 0
    ⟨.vStr "R", .vStr "u1"⟩ (by decide) (by decide)
    (by
      intro map hm
      have h0 : mapGet ([("R", [("u2", (⟨"u2", "Bob", "p2"⟩ : User))])] : RoomsMap)
          (normRoomId (JsVal.vStr "R")) = some [("u2", ⟨"u2", "Bob", "p2"⟩)] := by decide
      rw [h0] at hm
      cases hm
      decide)

theorem two_user_room_facts (m0 : RoomMap) (v1 v2 : String) (a b : User)
    (hvne : v1 ≠ v2) (ha : a.uid = v1) (hb : b.uid = v2) :
    (mapGet (mapSet (mapSet m0 v1 a) v2 b) v1).isSome ∧
    (mapGet (mapSet (mapSet m0 v1 a) v2 b) v2).isSome ∧
    (∃ m ∈ (mapSet (mapSet m0 v1 a) v2 b).map Prod.snd, m.uid = v1) ∧
    (∃ m ∈ (mapSet (mapSet m0 v1 a) v2 b).map Prod.snd, m.uid = v2) := by
  have hv1 : mapGet (mapSet (mapSet m0 v1 a) v2 b) v1 = some a := by
    rw [mapGet_mapSet_ne _ _ _ _ hvne]
    exact mapGet_mapSet_self _ _ _
  have hv2 : mapGet (mapSet (mapSet m0 v1 a) v2 b) v2 = some b :=
    mapGet_mapSet_self _ _ _
  exact ⟨by rw [hv1]; rfl, by rw [hv2]; rfl,
    ⟨a, List.mem_map_of_mem Prod.snd (mapGet_mem hv1), ha⟩,
    ⟨b, List.mem_map_of_mem Prod.snd (mapGet_mem hv2), hb⟩⟩

/-- C7: two raw room ids that normalize to the same RoomId denote the same
room: joining with one raw form and then the other targets a single registry
entry whose room contains both users, and the acknowledgement of the second
join lists both users in its peers. -/
theorem same_normalized_room_single_entry (s : SState) (sid1 sid2 : Nat)
    (r1 r2 w1 w2 n1 n2 q1 q2 : JsVal)
    (hr2 : normRoomId r2 = normRoomId r1)
    (hrne : normRoomId r1 ≠ "")
    (hu1 : jsTrim (jsOrEmpty w1) ≠ "") (hu2 : jsTrim (jsOrEmpty w2) ≠ "")
    (hq1 : jsTrim (jsOrEmpty q1) ≠ "") (hq2 : jsTrim (jsOrEmpty q2) ≠ "")
    (hvne : jsTrim (jsOrEmpty w1) ≠ jsTrim (jsOrEmpty w2))
    (hnd : keysNodup s.rooms) :
    ∃ room : RoomMap,
      mapGet (handleJoin (handleJoin s sid1 ⟨r1, w1, n1, q1⟩).state sid2
          ⟨r2, w2, n2, q2⟩).state.rooms (normRoomId r1) = some room ∧
      (mapGet room (jsTrim (jsOrEmpty w1))).isSome ∧
      (mapGet room (jsTrim (jsOrEmpty w2))).isSome ∧
      (handleJoin (handleJoin s sid1 ⟨r1, w1, n1, q1⟩).state sid2
          ⟨r2, w2, n2, q2⟩).state.rooms.countP (fun e => e.1 == normRoomId r1) = 1 ∧
      (handleJoin (handleJoin s sid1 ⟨r1, w1, n1, q1⟩).state sid2
          ⟨r2, w2, n2, q2⟩).ack = some (VoiceJoinAck.okAck (room.map Prod.snd)) ∧
      (∃ m ∈ room.map Prod.snd, m.uid = jsTrim (jsOrEmpty w1)) ∧
      (∃ m ∈ room.map Prod.snd, m.uid = jsTrim (jsOrEmpty w2)) := by
  rw [handleJoin_ok s sid1 (JoinPayload.mk r1 w1 n1 q1) hrne hu1 hq1]
  rw [handleJoin_ok _ sid2 (JoinPayload.mk r2 w2 n2 q2)
      (by show normRoomId r2 ≠ ""; rw [hr2]; exact hrne) hu2 hq2]
  simp only []
  rw [hr2]
  refine ⟨_, mapGet_mapSet_self _ _ _, ?_, ?_, ?_, rfl, ?_, ?_⟩
  · rw [mapGet_mapSet_self]
    simp only [Option.getD_some]
    refine (two_user_room_facts _ _ _ _ _ hvne ?_ ?_).1 <;> rfl
  · rw [mapGet_mapSet_self]
    rfl
  · exact countP_key_eq_one (keysNodup_mapSet _ _ (keysNodup_mapSet _ _ hnd))
      (mapGet_mapSet_self _ _ _)
  · rw [mapGet_mapSet_self]
    simp only [Option.getD_some]
    refine (two_user_room_facts _ _ _ _ _ hvne ?_ ?_).2.2.1 <;> rfl
  · rw [mapGet_mapSet_self]
    simp only [Option.getD_some]
    refine (two_user_room_facts _ _ _ _ _ hvne ?_ ?_).2.2.2 <;> rfl

theorem same_normalized_room_single_entry_witness :
    mapGet (handleJoin
        (handleJoin initState 0 ⟨.vStr "room-1", .vStr " u1 ", .vStr "Bob", .vStr "p1"⟩).state
        1 ⟨.vStr "ROOM-1", .vStr "u2", .vStr "Carol", .vStr "p2"⟩).state.rooms
      (normRoomId (JsVal.vStr "room-1")) ≠ none := by
  obtain ⟨room, h1, h2⟩ := same_normalized_room_single_entry initState 0 1
    (.vStr "room-1") (.vStr "ROOM-1") (.vStr " u1 ") (.vStr "u2")
    (.vStr "Bob") (.vStr "Carol") (.vStr "p1") (.vStr "p2")
    (by decide) (by decide) (by decide) (by decide) (by decide) (by decide)
    (by decide) (by decide)
  rw [h1]
  simp

/-- C4 counterexample: in a state where room R exists holding only u2, a
leave for the non-member u1 changes no membership, yet a user-left broadcast
for u1 is still emitted to room R, contradicting the claim that the
broadcast happens exactly when membership changed. -/
theorem user_left_broadcast_without_removal :
    (handleLeave ⟨[("R", [("u2", ⟨"u2", "Bob", "p2"⟩)])], []⟩ 0
        ⟨.vStr "R", .vStr "u1"⟩).state.rooms = [("R", [("u2", ⟨"u2", "Bob", "p2"⟩)])] ∧
    (handleLeave ⟨[("R", [("u2", ⟨"u2", "Bob", "p2"⟩)])], []⟩ 0
        ⟨.vStr "R", .vStr "u1"⟩).broadcasts = [⟨"R", 0, BMsg.userLeft "u1"⟩] := by
  constructor <;> decide

/-- C4 amended: for a leave or disconnect with nonempty normalized ids, a
user-left broadcast for the user id is emitted to the room (sender excluded)
exactly when the room id is present in the registry before the operation,
regardless of whether the user was actually a member, and at most one
broadcast is emitted per operation, so a removed member is announced to the
remaining members exactly once. -/
theorem user_left_broadcast_iff_room_exists (s : SState) (sid : Nat) (p : LeavePayload)
    (rid uid : String)
    (h1 : normRoomId p.roomId = rid) (h2 : jsTrim (jsOrEmpty p.uid) = uid)
    (hr : rid ≠ "") (hu : uid ≠ "") :
    ((handleLeave s sid p).broadcasts =
      if (mapGet s.rooms rid).isSome then [⟨rid, sid, BMsg.userLeft uid⟩] else []) ∧
    ((getConn s sid).dataRid = some rid → (getConn s sid).dataUid = some uid →
      (handleDisconnect s sid).broadcasts =
        if (mapGet s.rooms rid).isSome then [⟨rid, sid, BMsg.userLeft uid⟩] else []) := by
  subst h1 h2
  constructor
  · cases hm : mapGet s.rooms (normRoomId p.roomId) with
    | none =>
      rw [handleLeave_none s sid p hr hu hm]
      rfl
    | some map =>
      rw [handleLeave_some s sid p map hr hu hm]
      rfl
  · intro hbr hbu
    cases hm : mapGet s.rooms (normRoomId p.roomId) with
    | none =>
      rw [handleDisconnect_no_room s sid _ _ hbr hbu hr hu hm]
      rfl
    | some map =>
      rw [handleDisconnect_room s sid _ _ map hbr hbu hr hu hm]
      rfl

theorem user_left_broadcast_iff_room_exists_witness :
    ((handleLeave ⟨[("R", [("u1", ⟨"u1", "A", "p1"⟩), ("u2", ⟨"u2", "B", "p2"⟩)])],
        [(0, ⟨some "R", some "u1", ["R"]⟩)]⟩ 0 ⟨.vStr "R", .vStr "u1"⟩).broadcasts =
      if (mapGet ([("R", [("u1", (⟨"u1", "A", "p1"⟩ : User)),
          ("u2", ⟨"u2", "B", "p2"⟩)])] : RoomsMap) "R").isSome
      then [⟨"R", 0, BMsg.userLeft "u1"⟩] else []) ∧
    ((getConn ⟨[("R", [("u1", ⟨"u1", "A", "p1"⟩), ("u2", ⟨"u2", "B", "p2"⟩)])],
        [(0, ⟨some "R", some "u1", ["R"]⟩)]⟩ 0).dataRid = some "R" →
      (getConn ⟨[("R", [("u1", ⟨"u1", "A", "p1"⟩), ("u2", ⟨"u2", "B", "p2"⟩)])],
        [(0, ⟨some "R", some "u1", ["R"]⟩)]⟩ 0).dataUid = some "u1" →
      (handleDisconnect ⟨[("R", [("u1", ⟨"u1", "A", "p1"⟩), ("u2", ⟨"u2", "B", "p2"⟩)])],
        [(0, ⟨some "R", some "u1", ["R"]⟩)]⟩ 0).broadcasts =
        if (mapGet ([("R", [("u1", (⟨"u1", "A", "p1"⟩ : User)),
            ("u2", ⟨"u2", "B", "p2"⟩)])] : RoomsMap) "R").isSome
        then [⟨"R", 0, BMsg.userLeft "u1"⟩] else []) :=
  user_left_broadcast_iff_room_exists
    ⟨[("R", [("u1", ⟨"u1", "A", "p1"⟩), ("u2", ⟨"u2", "B", "p2"⟩)])],
      [(0, ⟨some "R", some "u1", ["R"]⟩)]⟩ 0 ⟨.vStr "R", .vStr "u1"⟩ "R" "u1"
    (by decide) (by decide) (by decide) (by decide)

/-- C8 counterexample: the boolean true is not a string, yet normRoomId maps
it to the nonempty string TRUE, so non-string inputs do not all normalize to
the empty string. -/
theorem normRoomId_nonstring_not_empty :
    (JsVal.vBool true).isStr = false ∧
    normRoomId (JsVal.vBool true) = "TRUE" ∧
    normRoomId (JsVal.vBool true) ≠ "" := by
  refine ⟨rfl, by decide, by decide⟩

/-- C8 amended: undefined, null and every other falsy input normalize to
the empty string, while a truthy non-string input is coerced to its
JavaScript string representation, trimmed and uppercased; normalization
never fails, and an empty result is the signal that the input was invalid
or falsy. -/
theorem normRoomId_falsy_empty :
    normRoomId JsVal.vUndefined = "" ∧ normRoomId JsVal.vNull = "" ∧
    (∀ v : JsVal, v.truthy = false → normRoomId v = "") ∧
    (∀ v : JsVal, v.truthy = true → normRoomId v = jsUpper (jsTrim v.toStr)) := by
  refine ⟨by decide, by decide, ?_, ?_⟩
  · intro v hv
    simp [normRoomId, jsOrEmpty, hv]
    decide
  · intro v hv
    simp [normRoomId, jsOrEmpty, hv]

theorem normRoomId_falsy_empty_witness :
    normRoomId (JsVal.vNum 0) = "" :=
  normRoomId_falsy_empty.2.2.1 (JsVal.vNum 0) (by decide)

/-- C5 counterexample: socket 0 joins room R as u1 while socket 1 is in R as
u2, then socket 0 leaves explicitly; its session binding is still present
afterwards, and the subsequent disconnect emits another user-left broadcast
for u1 even though u1 was already removed, contradicting the claim that the
binding is cleared and the disconnect is silent. -/
theorem stale_binding_after_leave :
    (getConn (runEvents
      [Event.join 1 ⟨.vStr "R", .vStr "u2", .vStr "B", .vStr "p2"⟩,
       Event.join 0 ⟨.vStr "R", .vStr "u1", .vStr "A", .vStr "p1"⟩,
       Event.leave 0 ⟨.vStr "R", .vStr "u1"⟩]) 0).dataRid = some "R" ∧
    (getConn (runEvents
      [Event.join 1 ⟨.vStr "R", .vStr "u2", .vStr "B", .vStr "p2"⟩,
       Event.join 0 ⟨.vStr "R", .vStr "u1", .vStr "A", .vStr "p1"⟩,
       Event.leave 0 ⟨.vStr "R", .vStr "u1"⟩]) 0).dataUid = some "u1" ∧
    (handleDisconnect (runEvents
      [Event.join 1 ⟨.vStr "R", .vStr "u2", .vStr "B", .vStr "p2"⟩,
       Event.join 0 ⟨.vStr "R", .vStr "u1", .vStr "A", .vStr "p1"⟩,
       Event.leave 0 ⟨.vStr "R", .vStr "u1"⟩]) 0).broadcasts
      = [⟨"R", 0, BMsg.userLeft "u1"⟩] := by
  refine ⟨by decide, by decide, by decide⟩

/-- C5 amended: an explicit leave does NOT clear the session binding of the
socket; after a leave for the bound room and user, a subsequent disconnect
leaves the registry unchanged (the user is already absent from the room),
but when the room still exists it emits one more user-left broadcast for the
bound user; when the room no longer exists the disconnect is silent. -/
theorem leave_keeps_binding (s : SState) (sid : Nat) (p : LeavePayload) (rid uid : String)
    (h1 : normRoomId p.roomId = rid) (h2 : jsTrim (jsOrEmpty p.uid) = uid)
    (hr : rid ≠ "") (hu : uid ≠ "")
    (hbr : (getConn s sid).dataRid = some rid) (hbu : (getConn s sid).dataUid = some uid)
    (hnd : keysNodup s.rooms) :
    (getConn (handleLeave s sid p).state sid).dataRid = some rid ∧
    (getConn (handleLeave s sid p).state sid).dataUid = some uid ∧
    (handleDisconnect (handleLeave s sid p).state sid).state.rooms
      = (handleLeave s sid p).state.rooms ∧
    ((handleDisconnect (handleLeave s sid p).state sid).broadcasts
      = if (mapGet (handleLeave s sid p).state.rooms rid).isSome
        then [⟨rid, sid, BMsg.userLeft uid⟩] else []) := by
  subst h1 h2
  cases hm : mapGet s.rooms (normRoomId p.roomId) with
  | none =>
    have hs1 : (handleLeave s sid p).state = s := by
      rw [handleLeave_none s sid p hr hu hm]
    rw [hs1]
    refine ⟨hbr, hbu, ?_, ?_⟩
    · rw [handleDisconnect_no_room s sid _ _ hbr hbu hr hu hm]
    · rw [handleDisconnect_no_room s sid _ _ hbr hbu hr hu hm, hm]
      rfl
  | some map =>
    have hbr1 : (getConn (handleLeave s sid p).state sid).dataRid
        = some (normRoomId p.roomId) := by
      rw [handleLeave_some s sid p map hr hu hm]
      simp only []
      rw [getConn_set]
      exact hbr
    have hbu1 : (getConn (handleLeave s sid p).state sid).dataUid
        = some (jsTrim (jsOrEmpty p.uid)) := by
      rw [handleLeave_some s sid p map hr hu hm]
      simp only []
      rw [getConn_set]
      exact hbu
    have hrooms1 : (handleLeave s sid p).state.rooms
        = if (mapDelete map (jsTrim (jsOrEmpty p.uid))).isEmpty
          then mapDelete s.rooms (normRoomId p.roomId)
          else mapSet s.rooms (normRoomId p.roomId)
            (mapDelete map (jsTrim (jsOrEmpty p.uid))) := by
      rw [handleLeave_some s sid p map hr hu hm]
    by_cases hempty : (mapDelete map (jsTrim (jsOrEmpty p.uid))).isEmpty = true
    · have hrooms2 : (handleLeave s sid p).state.rooms
          = mapDelete s.rooms (normRoomId p.roomId) := by
        rw [hrooms1, if_pos hempty]
      have hnone : mapGet (handleLeave s sid p).state.rooms (normRoomId p.roomId) = none := by
        rw [hrooms2]
        exact mapGet_mapDelete_self _ _
      refine ⟨hbr1, hbu1, ?_, ?_⟩
      · rw [handleDisconnect_no_room _ sid _ _ hbr1 hbu1 hr hu hnone]
      · rw [handleDisconnect_no_room _ sid _ _ hbr1 hbu1 hr hu hnone, hnone]
        rfl
    · have hrooms2 : (handleLeave s sid p).state.rooms
          = mapSet s.rooms (normRoomId p.roomId)
            (mapDelete map (jsTrim (jsOrEmpty p.uid))) := by
        rw [hrooms1, if_neg hempty]
      have hsome : mapGet (handleLeave s sid p).state.rooms (normRoomId p.roomId)
          = some (mapDelete map (jsTrim (jsOrEmpty p.uid))) := by
        rw [hrooms2]
        exact mapGet_mapSet_self _ _ _
      have hdel2 : mapDelete (mapDelete map (jsTrim (jsOrEmpty p.uid)))
          (jsTrim (jsOrEmpty p.uid)) = mapDelete map (jsTrim (jsOrEmpty p.uid)) :=
        mapDelete_eq_self (mapGet_mapDelete_self _ _)
      refine ⟨hbr1, hbu1, ?_, ?_⟩
      · rw [handleDisconnect_room _ sid _ _ _ hbr1 hbu1 hr hu hsome]
        simp only []
        rw [hdel2, if_neg hempty, hrooms2]
        exact mapSet_eq_self (keysNodup_mapSet _ _ hnd) (mapGet_mapSet_self _ _ _)
      · rw [handleDisconnect_room _ sid _ _ _ hbr1 hbu1 hr hu hsome, hsome]
        rfl

theorem leave_keeps_binding_witness :
    ((getConn (handleLeave ⟨[("R", [("u1", ⟨"u1", "A", "p1"⟩), ("u2", ⟨"u2", "B", "p2"⟩)])],
        [(0, ⟨some "R", some "u1", ["R"]⟩)]⟩ 0 ⟨.vStr "R", .vStr "u1"⟩).state 0).dataRid
      = some "R" ∧
    (getConn (handleLeave ⟨[("R", [("u1", ⟨"u1", "A", "p1"⟩), ("u2", ⟨"u2", "B", "p2"⟩)])],
        [(0, ⟨some "R", some "u1", ["R"]⟩)]⟩ 0 ⟨.vStr "R", .vStr "u1"⟩).state 0).dataUid
      = some "u1" ∧
    (handleDisconnect (handleLeave ⟨[("R", [("u1", ⟨"u1", "A", "p1"⟩), ("u2", ⟨"u2", "B", "p2"⟩)])],
        [(0, ⟨some "R", some "u1", ["R"]⟩)]⟩ 0 ⟨.vStr "R", .vStr "u1"⟩).state 0).state.rooms
      = (handleLeave ⟨[("R", [("u1", ⟨"u1", "A", "p1"⟩), ("u2", ⟨"u2", "B", "p2"⟩)])],
        [(0, ⟨some "R", some "u1", ["R"]⟩)]⟩ 0 ⟨.vStr "R", .vStr "u1"⟩).state.rooms ∧
    ((handleDisconnect (handleLeave ⟨[("R", [("u1", ⟨"u1", "A", "p1"⟩), ("u2", ⟨"u2", "B", "p2"⟩)])],
        [(0, ⟨some "R", some "u1", ["R"]⟩)]⟩ 0 ⟨.vStr "R", .vStr "u1"⟩).state 0).broadcasts
      = if (mapGet (handleLeave ⟨[("R", [("u1", ⟨"u1", "A", "p1"⟩), ("u2", ⟨"u2", "B", "p2"⟩)])],
          [(0, ⟨some "R", some "u1", ["R"]⟩)]⟩ 0 ⟨.vStr "R", .vStr "u1"⟩).state.rooms "R").isSome
        then [⟨"R", 0, BMsg.userLeft "u1"⟩] else [])) :=
  leave_keeps_binding ⟨[("R", [("u1", ⟨"u1", "A", "p1"⟩), ("u2", ⟨"u2", "B", "p2"⟩)])],
      [(0, ⟨some "R", some "u1", ["R"]⟩)]⟩ 0 ⟨.vStr "R", .vStr "u1"⟩ "R" "u1"
    (by decide) (by decide) (by decide) (by decide) (by decide) (by decide) (by decide)
